import Mathlib

/-!
# Verification of the aichatbot RAG pipelines

A shallow embedding of the two pipelines of this repository:

* `src/scrape.js` — the ingest pipeline: fetch a documentation article,
  extract its text, split it into chunks, embed each chunk and store it.
* `src/query.js` — the query pipeline: embed a user question, retrieve the
  nearest stored chunks, assemble a grounding context and call the
  generative model.

External services (HTTP fetch, HTML extraction backend, embedding service,
Supabase store, chat completion) are modelled as oracles: each network
interaction is an input describing the response the service would give,
and the embedded functions are pure functions of those oracle inputs.
Where a JavaScript function can throw, the embedding returns `Except`;
a thrown exception that nothing catches surfaces as an `Except.error`
of the surrounding orchestration function.
-/

namespace Aichatbot

/-- Decidable equality for `Except`, so concrete runs can be checked by
`decide`. -/
instance instDecEqExcept {ε α : Type} [DecidableEq ε] [DecidableEq α] :
    DecidableEq (Except ε α) := fun x y =>
  match x, y with
  | Except.ok a, Except.ok b =>
      if h : a = b then Decidable.isTrue (congrArg Except.ok h)
      else Decidable.isFalse (fun hc => h (Except.ok.inj hc))
  | Except.error a, Except.error b =>
      if h : a = b then Decidable.isTrue (congrArg Except.error h)
      else Decidable.isFalse (fun hc => h (Except.error.inj hc))
  | Except.ok _, Except.error _ => Decidable.isFalse (fun hc => Except.noConfusion hc)
  | Except.error _, Except.ok _ => Decidable.isFalse (fun hc => Except.noConfusion hc)

/-- Embedding vectors.  The numeric content of a vector is never inspected
by the code under verification, so components are modelled as integers. -/
abbrev Embedding := List Int

/-! ## Query pipeline (`src/query.js`) -/

/-- A row returned by the store's nearest-neighbour RPC
(`match_article_chunks`): the fields `src/query.js` reads. -/
structure Row where
  title : String
  content : String
  chunk_index : Nat
  deriving Repr, DecidableEq

/-- The `{ data, error }` union returned by the Supabase RPC call. -/
inductive RpcResp where
  | ok (data : List Row)
  | err (e : String)
  deriving Repr, DecidableEq

/-- `getEmbedding` (`src/query.js` lines 11–29, identical in
`src/scrape.js` lines 17–35): calls the embedding service; on failure it
logs and rethrows, so the caller sees the error. -/
def getEmbedding (resp : Except String Embedding) : Except String Embedding :=
  match resp with
  | Except.ok v => Except.ok v
  | Except.error e => Except.error e

/-- `querySupabase` (`src/query.js` lines 31–41): calls the
`match_article_chunks` RPC with the query embedding and `match_count`;
on `{ error }` it logs and returns `[]`, otherwise it returns `data`.
The similarity computation itself is delegated to the store, modelled by
the oracle `rpc`. -/
def querySupabase (queryEmbedding : Embedding) (topK : Nat)
    (rpc : Embedding → Nat → RpcResp) : List Row :=
  match rpc queryEmbedding topK with
  | RpcResp.ok data => data
  | RpcResp.err _ => []

/-- One labelled context line per result: the body of
`results.map((row, i) => ...)` at `src/query.js` line 62, with `i`
starting at `k`. -/
def contextLines (k : Nat) : List Row → List String
  | [] => []
  | row :: rest =>
      ("Context " ++ toString (k + 1) ++ " (from: " ++ row.title ++ "):\n"
        ++ row.content) :: contextLines (k + 1) rest

/-- The assembled context string (`src/query.js` line 62):
labelled lines joined by blank lines. -/
def buildContext (results : List Row) : String :=
  String.intercalate "\n\n" (contextLines 0 results)

/-- The fixed system prompt (`src/query.js` lines 65–71), byte for byte,
including the template literal's newlines and indentation. -/
def systemPrompt : String :=
  "You are a helpful customer support chatbot. \n"
  ++ "                            Use the provided context to answer the user's question as \n"
  ++ "                            accurately as possible. If the answer is not in the context, \n"
  ++ "                            say you don't know. Prefer structured answers. \n"
  ++ "                            Do not make up information. Do not use technical jargon, \n"
  ++ "                            or variable names passed to you.\n"
  ++ "                            "

/-- A chat message, as in the `messages` array of `src/query.js`. -/
structure Msg where
  role : String
  content : String
  deriving Repr, DecidableEq

/-- The observable outcome of one invocation of the query CLI. -/
inductive QueryOutcome where
  /-- `process.exit(code)` after the guidance message (line 47). -/
  | exit (code : Nat)
  /-- `getEmbedding` threw; `main().catch(console.error)` reports it. -/
  | embedFailed (e : String)
  /-- The chat-completion call was made with these messages. -/
  | generated (messages : List Msg)
  deriving Repr, DecidableEq

/-- A network call made by the query pipeline, in order. -/
inductive QCall where
  | embedCall (text : String)
  | rpcCall (k : Nat)
  | genCall (messages : List Msg)
  deriving Repr, DecidableEq

/-- `main` of `src/query.js` (lines 43–96): joined positional arguments,
empty-query guard, embedding, store query, context assembly, prompt
construction, generation call.  Returns the outcome together with the
trace of network calls attempted. -/
def queryMain (args : List String) (embedResp : Except String Embedding)
    (rpc : Embedding → Nat → RpcResp) : QueryOutcome × List QCall :=
  let userQuery := String.intercalate " " args
  if userQuery = "" then
    (QueryOutcome.exit 1, [])
  else
    match getEmbedding embedResp with
    | Except.error e => (QueryOutcome.embedFailed e, [QCall.embedCall userQuery])
    | Except.ok queryEmbedding =>
      let topK := 5
      let results := querySupabase queryEmbedding topK rpc
      let context := buildContext results
      let messages : List Msg :=
        [⟨"system", systemPrompt⟩,
         ⟨"user", "Context:\n" ++ context ++ "\n\nUser question: " ++ userQuery⟩]
      (QueryOutcome.generated messages,
       [QCall.embedCall userQuery, QCall.rpcCall topK, QCall.genCall messages])

/-! ## Chunker

`splitTextIntoChunks` (`src/scrape.js` lines 136–145) instantiates
`RecursiveCharacterTextSplitter` from `@langchain/textsplitters` with
`chunkSize 500`, `chunkOverlap 100` and the separator hierarchy
`["\n\n", "\n", ".", "!", "?", ",", " ", ""]`.  The splitter library is
not part of this repository's sources. -/

/-- If `sep` is a leading subsequence of `l`, the remainder of `l` after
it; `none` otherwise.  (A structurally recursive primitive, so concrete
evaluations reduce inside the kernel.) -/
def matchSep : List Char → List Char → Option (List Char)
  | [], l => some l
  | _ :: _, [] => none
  | p :: ps, c :: cs => if p = c then matchSep ps cs else none

/-- Whether `sep` occurs as a contiguous subsequence of `l`. -/
def hasSub (sep : List Char) : List Char → Bool
  | [] => (matchSep sep []).isSome
  | c :: cs => (matchSep sep (c :: cs)).isSome || hasSub sep cs

/-- Splitting a character list on a non-empty separator, with fuel for
structural recursion (fuel at least the list length always suffices). -/
def splitOnCharsFuel (sep : List Char) : Nat → List Char → List Char → List (List Char)
  | 0, l, cur => [cur.reverse ++ l]
  | Nat.succ _, [], cur => [cur.reverse]
  | Nat.succ fuel, c :: cs, cur =>
    match matchSep sep (c :: cs) with
    | some rest => cur.reverse :: splitOnCharsFuel sep fuel rest []
    | none => splitOnCharsFuel sep fuel cs (c :: cur)

/-- Split a string on a non-empty separator string. -/
def sSplitOn (sep text : String) : List String :=
  (splitOnCharsFuel sep.data (text.data.length + 1) text.data []).map String.mk

/-- Modelled from the spec: §4.3 Chunker — split on a separator, the empty
separator meaning a hard per-character split (library code of
`@langchain/textsplitters` is not under `src/`). -/
def splitOnSep (sep text : String) : List String :=
  if sep = "" then text.data.map (fun c => String.mk [c])
  else (sSplitOn sep text).filter (fun s => s ≠ "")

/-- Modelled from the spec: §4.3 Chunker — "recursively try separators in
priority order": the first separator occurring in the text is used, later
separators remain available for recursion; the empty separator always
applies. -/
def pickSeparator : List String → String → String × List String
  | [], _ => ("", [])
  | sep :: rest, text =>
    if sep = "" then ("", rest)
    else if hasSub sep.data text.data then (sep, rest)
    else pickSeparator rest text

/-- Join accumulated splits back with the separator they were split on. -/
def joinDocs (docs : List String) (sep : String) : String :=
  String.intercalate sep docs

/-- Length of the chunk the accumulated splits would currently form. -/
def totalLen (sep : String) (docs : List String) : Nat :=
  (joinDocs docs sep).length

/-- Modelled from the spec: §4.3 Chunker — after emitting a chunk, drop
leading splits until at most the overlap budget remains (so the next chunk
"overlaps the previous by a fixed amount"), also dropping while the next
split would not fit the size budget. -/
def shrink (sep : String) (overlap chunkSize dlen : Nat) : List String → List String
  | [] => []
  | d :: rest =>
    if totalLen sep (d :: rest) > overlap
        ∨ (totalLen sep (d :: rest) + dlen > chunkSize ∧ totalLen sep (d :: rest) > 0) then
      shrink sep overlap chunkSize dlen rest
    else d :: rest

/-- One step of greedy chunk accumulation: emit the current chunk when the
next split would push it past the size budget, keeping the overlap tail. -/
def mergeStep (sep : String) (chunkSize overlap : Nat)
    (acc : List String × List String) (d : String) : List String × List String :=
  let docs := acc.1
  let current := acc.2
  if totalLen sep current + d.length > chunkSize ∧ current ≠ [] then
    (docs ++ [joinDocs current sep],
     shrink sep overlap chunkSize d.length current ++ [d])
  else (docs, current ++ [d])

/-- Modelled from the spec: §4.3 Chunker — merge fine splits greedily into
chunks within the size budget, adjacent chunks sharing the overlap window. -/
def mergeSplits (sep : String) (chunkSize overlap : Nat) (splits : List String) : List String :=
  let acc := splits.foldl (mergeStep sep chunkSize overlap) ([], [])
  if acc.2 = [] then acc.1 else acc.1 ++ [joinDocs acc.2 sep]

/-- Modelled from the spec: §4.3 Chunker — "splitting only as finely as
needed to keep each chunk within a target size budget": split on the
chosen separator, recurse with the remaining separators on any piece still
over budget, and merge.  Recursion depth is bounded by the length of the
separator list, so fuel `16` is never exhausted for the fixed 8-separator
configuration. -/
def splitTextFuel (chunkSize overlap : Nat) : Nat → List String → String → List String
  | 0, _, text => [text]
  | Nat.succ fuel, seps, text =>
    let p := pickSeparator seps text
    let splits := splitOnSep p.1 text
    let pieces := splits.map (fun s =>
      if s.length ≤ chunkSize then [s]
      else splitTextFuel chunkSize overlap fuel p.2 s)
    mergeSplits p.1 chunkSize overlap pieces.flatten

/-- `splitTextIntoChunks` (`src/scrape.js` lines 136–145): the splitter
with the fixed configuration of the source. -/
def splitTextIntoChunks (text : String) : List String :=
  splitTextFuel 500 100 16 ["\n\n", "\n", ".", "!", "?", ",", " ", ""] text

/-! ## Ingest pipeline (`src/scrape.js`) -/

/-- An article page as the extractor sees it after a successful fetch:
whether the `.kb-article.tinymce-content` container is present, the raw
`h1 span` title text, and the container's text after removing the `h1`,
images and videos. -/
structure Page where
  hasArticleDiv : Bool
  rawTitle : String
  rawText : String
  deriving Repr, DecidableEq

/-- Cut a character list at every whitespace character. -/
def splitWsAux : List Char → List Char → List (List Char)
  | [], cur => [cur.reverse]
  | c :: cs, cur =>
    if c.isWhitespace then cur.reverse :: splitWsAux cs []
    else splitWsAux cs (c :: cur)

/-- `.replace(/\s+/g, ' ').trim()` (`src/scrape.js` lines 129–131):
collapse whitespace runs to single spaces and trim the ends — the
non-whitespace maximal pieces joined by single spaces. -/
def normalizeWs (s : String) : String :=
  String.intercalate " "
    (((splitWsAux s.data []).filter (fun piece => piece ≠ [])).map String.mk)

/-- `.trim()`: drop whitespace from both ends. -/
def sTrim (s : String) : String :=
  String.mk (((s.data.dropWhile Char.isWhitespace).reverse.dropWhile Char.isWhitespace).reverse)

/-- The `{ content, title }` value produced by `getArticleContent`. -/
structure ArticleContent where
  content : String
  title : String
  deriving Repr, DecidableEq

/-- `getArticleContent` (`src/scrape.js` lines 108–134): `null` when the
fetch failed (`fetchPage` returned `null`) or the article container is
missing; otherwise the trimmed title and the whitespace-normalized text.
The fetch outcome is the oracle input `fetched` (`none` = fetch failure). -/
def getArticleContent (fetched : Option Page) : Option ArticleContent :=
  match fetched with
  | none => none
  | some page =>
    if page.hasArticleDiv then
      some { content := normalizeWs page.rawText, title := sTrim page.rawTitle }
    else none

/-- Metadata of a chunk as submitted to the store
(`src/scrape.js` lines 170–175). -/
structure ChunkMetadata where
  source_url : String
  title : String
  chunk_index : Nat
  total_chunks : Nat
  deriving Repr, DecidableEq

/-- The record submitted to `storeChunkInSupabase`
(`src/scrape.js` lines 168–177). -/
structure ChunkData where
  content : String
  metadata : ChunkMetadata
  embedding : Embedding
  deriving Repr, DecidableEq

/-- The `{ data, error }` union returned by the Supabase
`insert(...).select()` call. -/
inductive InsertResp where
  | ok (data : List Nat)
  | err (e : String)
  deriving Repr, DecidableEq

/-- `storeChunkInSupabase` (`src/scrape.js` lines 37–57): on `{ error }`
the code throws into its own `catch`, logs, and returns `null`; on success
it returns the inserted rows.  Total — it never lets the error escape. -/
def storeChunkInSupabase (resp : InsertResp) : Option (List Nat) :=
  match resp with
  | InsertResp.ok data => some data
  | InsertResp.err _ => none

/-- An error thrown out of `processArticle`:
`typeError` is the `TypeError` raised by destructuring
`const { content, title } = null` when `getArticleContent` returns `null`;
`embedError` is the error rethrown by `getEmbedding`. -/
inductive ScrapeErr where
  | typeError
  | embedError (e : String)
  deriving Repr, DecidableEq

/-- An observable step of the ingest pipeline, in order. -/
inductive IngestEvent where
  /-- `splitTextIntoChunks` was invoked on this text. -/
  | splitCall (text : String)
  /-- `getEmbedding` was invoked on this chunk text. -/
  | embedCall (text : String)
  /-- `storeChunkInSupabase` was invoked with this record. -/
  | insertCall (chunk : ChunkData)
  deriving Repr, DecidableEq

/-- The environment of one article: its URL, the fetch/extract oracle, and
per-chunk oracles for the embedding service and the store insert (indexed
by the chunk position, since calls are strictly sequential). -/
structure ArticleEnv where
  url : String
  fetched : Option Page
  embed : Nat → Except String Embedding
  insertResp : Nat → InsertResp

/-- The per-chunk loop of `processArticle` (`src/scrape.js` lines
160–182), from chunk index `i` with running count `storedCount`: prefix
the chunk with the title, embed (a thrown embedding error propagates — the
loop has no try/catch), build the record, insert, and count only non-null
insert results. -/
def processChunksAux (env : ArticleEnv) (title : String) (total : Nat) :
    List String → Nat → Nat → Except ScrapeErr Nat × List IngestEvent
  | [], _, storedCount => (Except.ok storedCount, [])
  | c :: rest, i, storedCount =>
    let chunk := title ++ " " ++ c
    match getEmbedding (env.embed i) with
    | Except.error e => (Except.error (ScrapeErr.embedError e), [IngestEvent.embedCall chunk])
    | Except.ok embedding =>
      let chunkData : ChunkData :=
        { content := chunk
          metadata :=
            { source_url := env.url, title := title, chunk_index := i, total_chunks := total }
          embedding := embedding }
      let result := storeChunkInSupabase (env.insertResp i)
      let storedCount' := if result.isSome then storedCount + 1 else storedCount
      let next := processChunksAux env title total rest (i + 1) storedCount'
      (next.1, IngestEvent.embedCall chunk :: IngestEvent.insertCall chunkData :: next.2)

/-- `processArticle` (`src/scrape.js` lines 147–186).  The destructuring
`const { content, title } = await getArticleContent(articleUrl)` throws a
`TypeError` when the result is `null`, before the `if (!content)` guard
can run; an empty (falsy) content string returns `0` without chunking;
otherwise the article is split and the per-chunk loop runs. -/
def processArticle (env : ArticleEnv) : Except ScrapeErr Nat × List IngestEvent :=
  match getArticleContent env.fetched with
  | none => (Except.error ScrapeErr.typeError, [])
  | some a =>
    if a.content = "" then (Except.ok 0, [])
    else
      let chunks := splitTextIntoChunks a.content
      let r := processChunksAux env a.title chunks.length chunks 0 0
      (r.1, IngestEvent.splitCall a.content :: r.2)

/-- The article loop of `main` (`src/scrape.js` lines 209–214) with
running total `total`: `await processArticle(...)` is not wrapped in any
try/catch, so an exception thrown by `processArticle` aborts the loop and
the remaining articles are never processed (`main().catch(console.error)`
merely reports it). -/
def runArticlesAux : List ArticleEnv → Nat → Except ScrapeErr Nat × List IngestEvent
  | [], total => (Except.ok total, [])
  | env :: rest, total =>
    match processArticle env with
    | (Except.error e, evs) => (Except.error e, evs)
    | (Except.ok n, evs) =>
      let r := runArticlesAux rest (total + n)
      (r.1, evs ++ r.2)

/-- The article loop of `main`, starting from a zero chunk total. -/
def runArticles (envs : List ArticleEnv) : Except ScrapeErr Nat × List IngestEvent :=
  runArticlesAux envs 0

/-- The records submitted to the store, in order, in a trace. -/
def insertedChunks (evs : List IngestEvent) : List ChunkData :=
  evs.filterMap (fun e =>
    match e with
    | IngestEvent.insertCall cd => some cd
    | _ => none)

/-- How many of the first `n` insert calls (starting at chunk `i0`)
succeed — the value `storedCount` reaches when every embedding succeeds. -/
def countStored (env : ArticleEnv) (i0 n : Nat) : Nat :=
  (List.range n).countP (fun j => (storeChunkInSupabase (env.insertResp (i0 + j))).isSome)

/-- The trace the per-chunk loop produces when every embedding succeeds:
for the chunk at position `i`, an embedding call and an insert call with
the title-prefixed content, metadata `⟨url, title, i, total⟩` and the
embedding the service returned. -/
def expectedChunkEvents (env : ArticleEnv) (title : String) (total : Nat)
    (embVal : Nat → Embedding) : List String → Nat → List IngestEvent
  | [], _ => []
  | c :: rest, i =>
    IngestEvent.embedCall (title ++ " " ++ c)
      :: IngestEvent.insertCall
          { content := title ++ " " ++ c
            metadata :=
              { source_url := env.url, title := title, chunk_index := i, total_chunks := total }
            embedding := embVal i }
      :: expectedChunkEvents env title total embVal rest (i + 1)

/-! ## Concrete sample inputs -/

/-- A sample article URL. -/
def sampleUrl : String := "https://docs.example/a"

/-- A healthy article page: container present, one short chunk of text. -/
def okPage : Page := { hasArticleDiv := true, rawTitle := " T ", rawText := "hello world" }

/-- An article whose fetch, extraction, embedding and insert all succeed. -/
def cOkEnv : ArticleEnv :=
  { url := sampleUrl, fetched := some okPage,
    embed := fun _ => Except.ok [1], insertResp := fun _ => InsertResp.ok [7] }

/-- An article whose fetch fails (`fetchPage` returns `null`). -/
def cFetchFailEnv : ArticleEnv :=
  { url := sampleUrl, fetched := none,
    embed := fun _ => Except.ok [1], insertResp := fun _ => InsertResp.ok [7] }

/-- An article page without the `.kb-article.tinymce-content` container. -/
def cNoDivEnv : ArticleEnv :=
  { url := sampleUrl, fetched := some { hasArticleDiv := false, rawTitle := "T", rawText := "x" },
    embed := fun _ => Except.ok [1], insertResp := fun _ => InsertResp.ok [7] }

/-- An article page whose container holds only whitespace. -/
def cBlankEnv : ArticleEnv :=
  { url := sampleUrl, fetched := some { hasArticleDiv := true, rawTitle := "T", rawText := "   " },
    embed := fun _ => Except.ok [1], insertResp := fun _ => InsertResp.ok [7] }

/-- An article whose insert fails (store error) while everything else
succeeds. -/
def cInsertFailEnv : ArticleEnv :=
  { url := sampleUrl, fetched := some okPage,
    embed := fun _ => Except.ok [1], insertResp := fun _ => InsertResp.err "db down" }

/-- 120 copies of "lorem" joined by single spaces: a 719-character text
that the splitter cuts into two chunks. -/
def loremText : String := String.intercalate " " (List.replicate 120 "lorem")

/-- A two-chunk article whose embedding call fails on the first chunk. -/
def cEmbedFailEnv : ArticleEnv :=
  { url := sampleUrl,
    fetched := some { hasArticleDiv := true, rawTitle := "T", rawText := loremText },
    embed := fun i => if i = 0 then Except.error "boom" else Except.ok [1],
    insertResp := fun _ => InsertResp.ok [7] }

/-! ## Helper lemmas -/

theorem countStored_zero (env : ArticleEnv) (i0 : Nat) : countStored env i0 0 = 0 := by
  simp [countStored]

theorem insertedChunks_embed_cons (t : String) (evs : List IngestEvent) :
    insertedChunks (IngestEvent.embedCall t :: evs) = insertedChunks evs := by
  simp [insertedChunks]

theorem insertedChunks_split_cons (t : String) (evs : List IngestEvent) :
    insertedChunks (IngestEvent.splitCall t :: evs) = insertedChunks evs := by
  simp [insertedChunks]

theorem insertedChunks_insert_cons (cd : ChunkData) (evs : List IngestEvent) :
    insertedChunks (IngestEvent.insertCall cd :: evs) = cd :: insertedChunks evs := by
  simp [insertedChunks]

theorem countStored_succ (env : ArticleEnv) (i0 n : Nat) :
    countStored env i0 (n + 1) =
      (if (storeChunkInSupabase (env.insertResp i0)).isSome then 1 else 0)
        + countStored env (i0 + 1) n := by
  have harg : ((fun j => (storeChunkInSupabase (env.insertResp (i0 + j))).isSome) ∘ Nat.succ)
      = fun j => (storeChunkInSupabase (env.insertResp (i0 + 1 + j))).isSome := by
    funext j
    simp only [Function.comp_apply, Nat.succ_eq_add_one]
    rw [show i0 + (j + 1) = i0 + 1 + j by omega]
  simp only [countStored, List.range_succ_eq_map, List.countP_cons, List.countP_map, harg,
    Nat.add_zero]
  exact Nat.add_comm _ _

theorem processChunksAux_eq (env : ArticleEnv) (title : String) (total : Nat)
    (embVal : Nat → Embedding) :
    ∀ (chunks : List String) (i0 s0 : Nat),
      (∀ j, j < chunks.length → env.embed (i0 + j) = Except.ok (embVal (i0 + j))) →
      processChunksAux env title total chunks i0 s0 =
        (Except.ok (s0 + countStored env i0 chunks.length),
         expectedChunkEvents env title total embVal chunks i0) := by
  intro chunks
  induction chunks with
  | nil =>
    intro i0 s0 _
    simp [processChunksAux, expectedChunkEvents, countStored]
  | cons c rest ih =>
    intro i0 s0 h
    have h0 : env.embed i0 = Except.ok (embVal i0) := by
      simpa using h 0 (by simp)
    have hrest : ∀ j, j < rest.length →
        env.embed (i0 + 1 + j) = Except.ok (embVal (i0 + 1 + j)) := by
      intro j hj
      have e : i0 + (j + 1) = i0 + 1 + j := by omega
      have := h (j + 1) (by simpa using Nat.succ_lt_succ hj)
      rw [e] at this
      exact this
    have hcount : (if (storeChunkInSupabase (env.insertResp i0)).isSome then s0 + 1 else s0)
          + countStored env (i0 + 1) rest.length
        = s0 + countStored env i0 (rest.length + 1) := by
      rw [countStored_succ]
      by_cases hstore : (storeChunkInSupabase (env.insertResp i0)).isSome = true
      · simp only [if_pos hstore]; omega
      · simp only [if_neg hstore]; omega
    simp only [processChunksAux, h0, getEmbedding]
    rw [ih (i0 + 1) _ hrest]
    refine Prod.ext ?_ ?_
    · simpa only [List.length_cons] using congrArg Except.ok hcount
    · simp [expectedChunkEvents]

theorem processChunksAux_embedFail (env : ArticleEnv) (title : String) (total : Nat)
    (embVal : Nat → Embedding) (e : String) :
    ∀ (chunks : List String) (i0 s0 k : Nat),
      k < chunks.length →
      (∀ j, j < k → env.embed (i0 + j) = Except.ok (embVal (i0 + j))) →
      env.embed (i0 + k) = Except.error e →
      (processChunksAux env title total chunks i0 s0).1 = Except.error (ScrapeErr.embedError e)
      ∧ (insertedChunks (processChunksAux env title total chunks i0 s0).2).length = k := by
  intro chunks
  induction chunks with
  | nil =>
    intro i0 s0 k hk
    simp at hk
  | cons c rest ih =>
    intro i0 s0 k hk hpre hfail
    cases k with
    | zero =>
      have h0 : env.embed i0 = Except.error e := by simpa using hfail
      simp [processChunksAux, h0, getEmbedding, insertedChunks]
    | succ k' =>
      have h0 : env.embed i0 = Except.ok (embVal i0) := by
        simpa using hpre 0 (Nat.succ_pos _)
      have hpre' : ∀ j, j < k' → env.embed (i0 + 1 + j) = Except.ok (embVal (i0 + 1 + j)) := by
        intro j hj
        have eadd : i0 + (j + 1) = i0 + 1 + j := by omega
        have := hpre (j + 1) (Nat.succ_lt_succ hj)
        rw [eadd] at this
        exact this
      have hfail' : env.embed (i0 + 1 + k') = Except.error e := by
        have eadd : i0 + (k' + 1) = i0 + 1 + k' := by omega
        rw [eadd] at hfail
        exact hfail
      have hrec := ih (i0 + 1)
        (if (storeChunkInSupabase (env.insertResp i0)).isSome then s0 + 1 else s0) k'
        (by simpa using Nat.lt_of_succ_lt_succ hk) hpre' hfail'
      simp only [processChunksAux, h0, getEmbedding]
      refine ⟨?_, ?_⟩
      · exact hrec.1
      · simp [insertedChunks] at hrec ⊢
        omega

theorem processArticle_eq_of_some (env : ArticleEnv) (page : Page)
    (hf : env.fetched = some page) (hdiv : page.hasArticleDiv = true)
    (hne : normalizeWs page.rawText ≠ "") :
    processArticle env =
      ((processChunksAux env (sTrim page.rawTitle)
          (splitTextIntoChunks (normalizeWs page.rawText)).length
          (splitTextIntoChunks (normalizeWs page.rawText)) 0 0).1,
       IngestEvent.splitCall (normalizeWs page.rawText)
         :: (processChunksAux env (sTrim page.rawTitle)
              (splitTextIntoChunks (normalizeWs page.rawText)).length
              (splitTextIntoChunks (normalizeWs page.rawText)) 0 0).2) := by
  simp [processArticle, getArticleContent, hf, hdiv, hne]

theorem insertedChunks_expected_indices (env : ArticleEnv) (title : String) (total : Nat)
    (embVal : Nat → Embedding) :
    ∀ (chunks : List String) (i0 : Nat),
      (insertedChunks (expectedChunkEvents env title total embVal chunks i0)).map
          (fun cd => cd.metadata.chunk_index)
        = List.range' i0 chunks.length := by
  intro chunks
  induction chunks with
  | nil => intro i0; simp [expectedChunkEvents, insertedChunks]
  | cons c rest ih =>
    intro i0
    simp only [expectedChunkEvents, insertedChunks_embed_cons, insertedChunks_insert_cons,
      List.map_cons, List.length_cons, List.range'_succ, ih (i0 + 1)]

theorem insertedChunks_expected_total (env : ArticleEnv) (title : String) (total : Nat)
    (embVal : Nat → Embedding) :
    ∀ (chunks : List String) (i0 : Nat) (cd : ChunkData),
      cd ∈ insertedChunks (expectedChunkEvents env title total embVal chunks i0) →
      cd.metadata.total_chunks = total := by
  intro chunks
  induction chunks with
  | nil => intro i0 cd h; simp [expectedChunkEvents, insertedChunks] at h
  | cons c rest ih =>
    intro i0 cd h
    simp only [expectedChunkEvents, insertedChunks, List.filterMap_cons] at h
    rcases List.mem_cons.mp h with h1 | h2
    · rw [h1]
    · exact ih (i0 + 1) cd h2

theorem insertedChunks_expected_contents (env : ArticleEnv) (title : String) (total : Nat)
    (embVal : Nat → Embedding) :
    ∀ (chunks : List String) (i0 : Nat),
      (insertedChunks (expectedChunkEvents env title total embVal chunks i0)).map
          (fun cd => cd.content)
        = chunks.map (fun c => title ++ " " ++ c) := by
  intro chunks
  induction chunks with
  | nil => intro i0; simp [expectedChunkEvents, insertedChunks]
  | cons c rest ih =>
    intro i0
    simp only [expectedChunkEvents, insertedChunks_embed_cons, insertedChunks_insert_cons,
      List.map_cons, ih (i0 + 1)]

theorem insertedChunks_expected_length (env : ArticleEnv) (title : String) (total : Nat)
    (embVal : Nat → Embedding) (chunks : List String) (i0 : Nat) :
    (insertedChunks (expectedChunkEvents env title total embVal chunks i0)).length
      = chunks.length := by
  have h := insertedChunks_expected_contents env title total embVal chunks i0
  have := congrArg List.length h
  simpa using this

theorem contextLines_eq (dflt : Row) :
    ∀ (rows : List Row) (k : Nat),
      contextLines k rows = (List.range rows.length).map (fun i =>
        "Context " ++ toString (k + i + 1) ++ " (from: " ++ (rows.getD i dflt).title
          ++ "):\n" ++ (rows.getD i dflt).content) := by
  intro rows
  induction rows with
  | nil => intro k; simp [contextLines]
  | cons r rest ih =>
    intro k
    simp only [contextLines, List.length_cons, List.range_succ_eq_map, List.map_cons,
      List.map_map]
    refine List.cons_eq_cons.mpr ⟨by simp, ?_⟩
    rw [ih (k + 1)]
    apply List.map_congr_left
    intro i _
    have h1 : k + 1 + i + 1 = k + (i + 1) + 1 := by omega
    simp [Function.comp, h1]

/-! ## Claim theorems -/

/-- C4: for every query embedding and every `k`, `querySupabase` returns
the empty list when the store RPC reports an error (it never lets the
error propagate — its type is total), and that empty result is the very
value the caller gets when the store succeeds with zero matches. -/
theorem query_store_error_empty (emb : Embedding) (k : Nat)
    (rpc : Embedding → Nat → RpcResp) (e : String) (h : rpc emb k = RpcResp.err e) :
    querySupabase emb k rpc = []
    ∧ querySupabase emb k rpc = querySupabase emb k (fun _ _ => RpcResp.ok []) := by
  constructor <;> simp [querySupabase, h]

theorem query_store_error_empty_witness :
    querySupabase [1] 5 (fun _ _ => RpcResp.err "store down") = []
    ∧ querySupabase [1] 5 (fun _ _ => RpcResp.err "store down")
        = querySupabase [1] 5 (fun _ _ => RpcResp.ok []) :=
  query_store_error_empty [1] 5 (fun _ _ => RpcResp.err "store down") "store down" rfl

/-- C5: when the store returns zero results, the assembled context is the
empty string and the generation call is still made, with the same fixed
system prompt and a user message containing the (empty) context followed
by the question. -/
theorem empty_results_still_generates (args : List String) (emb : Embedding)
    (rpc : Embedding → Nat → RpcResp)
    (hq : String.intercalate " " args ≠ "") (hrpc : rpc emb 5 = RpcResp.ok []) :
    buildContext (querySupabase emb 5 rpc) = ""
    ∧ queryMain args (Except.ok emb) rpc =
        (QueryOutcome.generated
          [{ role := "system", content := systemPrompt },
           { role := "user", content := "Context:\n" ++ "" ++ "\n\nUser question: "
               ++ String.intercalate " " args }],
         [QCall.embedCall (String.intercalate " " args), QCall.rpcCall 5,
          QCall.genCall
            [{ role := "system", content := systemPrompt },
             { role := "user", content := "Context:\n" ++ "" ++ "\n\nUser question: "
                 ++ String.intercalate " " args }]]) := by
  have hempty : querySupabase emb 5 rpc = [] := by simp [querySupabase, hrpc]
  have hctx : buildContext ([] : List Row) = "" := rfl
  refine ⟨by rw [hempty, hctx], ?_⟩
  simp [queryMain, hq, getEmbedding, hempty, buildContext, contextLines,
    show String.intercalate "\n\n" ([] : List String) = "" from rfl]

theorem empty_results_still_generates_witness :
    buildContext (querySupabase [1] 5 (fun _ _ => RpcResp.ok [])) = ""
    ∧ queryMain ["refund", "policy"] (Except.ok [1]) (fun _ _ => RpcResp.ok []) =
        (QueryOutcome.generated
          [{ role := "system", content := systemPrompt },
           { role := "user", content := "Context:\n" ++ "" ++ "\n\nUser question: "
               ++ String.intercalate " " ["refund", "policy"] }],
         [QCall.embedCall (String.intercalate " " ["refund", "policy"]), QCall.rpcCall 5,
          QCall.genCall
            [{ role := "system", content := systemPrompt },
             { role := "user", content := "Context:\n" ++ "" ++ "\n\nUser question: "
                 ++ String.intercalate " " ["refund", "policy"] }]]) :=
  empty_results_still_generates ["refund", "policy"] [1] (fun _ _ => RpcResp.ok [])
    (by decide) rfl

/-- C6: invoked with an empty positional-argument list, the query CLI
exits with status 1 (non-zero) after the guidance message, and the trace
of attempted network calls is empty — no embedding, store, or generation
call is made. -/
theorem empty_query_no_network (embedResp : Except String Embedding)
    (rpc : Embedding → Nat → RpcResp) :
    queryMain [] embedResp rpc = (QueryOutcome.exit 1, []) := rfl

/-- C7: the assembled context labels the `i`-th store result (1-based, in
the store's order) `Context i (from: title):` followed by a newline and
the result's content, entries joined by blank lines; on the single result
titled "Refunds" with stored content "Refunds We refund within 30 days"
it is exactly the string the claim pins down. -/
theorem context_assembly_format :
    (∀ rows : List Row,
      buildContext rows = String.intercalate "\n\n" ((List.range rows.length).map (fun i =>
        "Context " ++ toString (i + 1) ++ " (from: "
          ++ (rows.getD i { title := "", content := "", chunk_index := 0 }).title
          ++ "):\n"
          ++ (rows.getD i { title := "", content := "", chunk_index := 0 }).content)))
    ∧ buildContext
        [{ title := "Refunds", content := "Refunds We refund within 30 days", chunk_index := 0 }]
        = "Context 1 (from: Refunds):\nRefunds We refund within 30 days" := by
  constructor
  · intro rows
    unfold buildContext
    rw [contextLines_eq { title := "", content := "", chunk_index := 0 } rows 0]
    congr 1
    apply List.map_congr_left
    intro i _
    simp
  · decide

/-- C9: the split operation with the fixed configuration (size 500,
overlap 100, the fixed separator hierarchy) is a pure function of the
input text: identical texts yield identical chunk sequences. -/
theorem split_deterministic (t1 t2 : String) (h : t1 = t2) :
    splitTextIntoChunks t1 = splitTextIntoChunks t2 := by rw [h]

theorem split_deterministic_witness :
    splitTextIntoChunks "hello world" = splitTextIntoChunks "hello world" :=
  split_deterministic "hello world" "hello world" rfl

/-- C10: when extraction succeeds (the container exists) but the
whitespace-normalized text is empty, `processArticle` returns zero chunks
stored and its trace is empty — no chunking, embedding, or store call is
made for that article. -/
theorem empty_content_skips_article (env : ArticleEnv) (page : Page)
    (hf : env.fetched = some page) (hdiv : page.hasArticleDiv = true)
    (hempty : normalizeWs page.rawText = "") :
    processArticle env = (Except.ok 0, []) := by
  simp [processArticle, getArticleContent, hf, hdiv, hempty]

theorem empty_content_skips_article_witness :
    processArticle cBlankEnv = (Except.ok 0, []) :=
  empty_content_skips_article cBlankEnv
    { hasArticleDiv := true, rawTitle := "T", rawText := "   " } rfl rfl (by decide)

/-- C3: `storeChunkInSupabase` returns `none` (null) on a store error —
its type is total, so the error is never rethrown to the loop — and under
successful embeddings the per-chunk loop completes all `n` chunks, with
`storedCount` equal to the number of non-null insert results, however many
inserts fail. -/
theorem insert_failure_isolated (env : ArticleEnv) (page : Page) (embVal : Nat → Embedding)
    (hf : env.fetched = some page) (hdiv : page.hasArticleDiv = true)
    (hne : normalizeWs page.rawText ≠ "")
    (hembed : ∀ j, j < (splitTextIntoChunks (normalizeWs page.rawText)).length →
      env.embed j = Except.ok (embVal j)) :
    (∀ e, storeChunkInSupabase (InsertResp.err e) = none)
    ∧ (processArticle env).1
        = Except.ok (countStored env 0 (splitTextIntoChunks (normalizeWs page.rawText)).length)
    ∧ (insertedChunks (processArticle env).2).length
        = (splitTextIntoChunks (normalizeWs page.rawText)).length := by
  have hembed' : ∀ j, j < (splitTextIntoChunks (normalizeWs page.rawText)).length →
      env.embed (0 + j) = Except.ok (embVal (0 + j)) := by
    intro j hj; simpa using hembed j hj
  have hmain := processChunksAux_eq env (sTrim page.rawTitle)
    (splitTextIntoChunks (normalizeWs page.rawText)).length embVal
    (splitTextIntoChunks (normalizeWs page.rawText)) 0 0 hembed'
  have hPA := processArticle_eq_of_some env page hf hdiv hne
  refine ⟨fun e => rfl, ?_, ?_⟩
  · rw [hPA, hmain]
    simp
  · rw [hPA, hmain]
    simp [insertedChunks_split_cons, insertedChunks_expected_length]

theorem insert_failure_isolated_witness :
    (∀ e, storeChunkInSupabase (InsertResp.err e) = none)
    ∧ (processArticle cInsertFailEnv).1
        = Except.ok (countStored cInsertFailEnv 0
            (splitTextIntoChunks (normalizeWs okPage.rawText)).length)
    ∧ (insertedChunks (processArticle cInsertFailEnv).2).length
        = (splitTextIntoChunks (normalizeWs okPage.rawText)).length :=
  insert_failure_isolated cInsertFailEnv okPage (fun _ => [1]) rfl rfl (by decide)
    (fun _ _ => rfl)

/-- C8: for an article whose normalized text splits into `n` chunks and
whose embeddings succeed, the records submitted for storage carry
`chunk_index` values exactly `0..n-1` in order, every record's
`total_chunks` equals `n`, and every record's content is the article
title, a single space, and the chunk text. -/
theorem chunk_metadata_invariant (env : ArticleEnv) (page : Page) (embVal : Nat → Embedding)
    (hf : env.fetched = some page) (hdiv : page.hasArticleDiv = true)
    (hne : normalizeWs page.rawText ≠ "")
    (hembed : ∀ j, j < (splitTextIntoChunks (normalizeWs page.rawText)).length →
      env.embed j = Except.ok (embVal j)) :
    ((insertedChunks (processArticle env).2).map (fun cd => cd.metadata.chunk_index)
        = List.range (splitTextIntoChunks (normalizeWs page.rawText)).length)
    ∧ (∀ cd, cd ∈ insertedChunks (processArticle env).2 →
        cd.metadata.total_chunks = (splitTextIntoChunks (normalizeWs page.rawText)).length)
    ∧ ((insertedChunks (processArticle env).2).map (fun cd => cd.content)
        = (splitTextIntoChunks (normalizeWs page.rawText)).map
            (fun c => sTrim page.rawTitle ++ " " ++ c)) := by
  have hembed' : ∀ j, j < (splitTextIntoChunks (normalizeWs page.rawText)).length →
      env.embed (0 + j) = Except.ok (embVal (0 + j)) := by
    intro j hj; simpa using hembed j hj
  have hmain := processChunksAux_eq env (sTrim page.rawTitle)
    (splitTextIntoChunks (normalizeWs page.rawText)).length embVal
    (splitTextIntoChunks (normalizeWs page.rawText)) 0 0 hembed'
  have hPA := processArticle_eq_of_some env page hf hdiv hne
  have h2 : insertedChunks (processArticle env).2
      = insertedChunks (expectedChunkEvents env (sTrim page.rawTitle)
          (splitTextIntoChunks (normalizeWs page.rawText)).length embVal
          (splitTextIntoChunks (normalizeWs page.rawText)) 0) := by
    rw [hPA, hmain]
    exact insertedChunks_split_cons _ _
  refine ⟨?_, ?_, ?_⟩
  · rw [h2, insertedChunks_expected_indices]
    exact (List.range_eq_range' _).symm
  · intro cd hcd
    rw [h2] at hcd
    exact insertedChunks_expected_total env (sTrim page.rawTitle) _ embVal _ 0 cd hcd
  · rw [h2, insertedChunks_expected_contents]

theorem chunk_metadata_invariant_witness :
    ((insertedChunks (processArticle cOkEnv).2).map (fun cd => cd.metadata.chunk_index)
        = List.range (splitTextIntoChunks (normalizeWs okPage.rawText)).length)
    ∧ (∀ cd, cd ∈ insertedChunks (processArticle cOkEnv).2 →
        cd.metadata.total_chunks = (splitTextIntoChunks (normalizeWs okPage.rawText)).length)
    ∧ ((insertedChunks (processArticle cOkEnv).2).map (fun cd => cd.content)
        = (splitTextIntoChunks (normalizeWs okPage.rawText)).map
            (fun c => sTrim okPage.rawTitle ++ " " ++ c)) :=
  chunk_metadata_invariant cOkEnv okPage (fun _ => [1]) rfl rfl (by decide) (fun _ _ => rfl)

/-- C2 (amended): insert failures are isolated at chunk granularity — with
successful embeddings the loop completes all `n` chunks, counting only
non-null inserts — but an embedding failure for chunk `k` is NOT caught:
the error propagates out of `processArticle`, only the first `k` chunks
were submitted for storage, and the whole run aborts, so neither the
remaining chunks of the article nor the remaining articles are
processed. -/
theorem chunk_isolation_amended (env : ArticleEnv) (page : Page) (embVal : Nat → Embedding)
    (hf : env.fetched = some page) (hdiv : page.hasArticleDiv = true)
    (hne : normalizeWs page.rawText ≠ "") :
    ((∀ j, j < (splitTextIntoChunks (normalizeWs page.rawText)).length →
        env.embed j = Except.ok (embVal j)) →
      (processArticle env).1
          = Except.ok (countStored env 0 (splitTextIntoChunks (normalizeWs page.rawText)).length)
      ∧ (insertedChunks (processArticle env).2).length
          = (splitTextIntoChunks (normalizeWs page.rawText)).length)
    ∧ (∀ k e, k < (splitTextIntoChunks (normalizeWs page.rawText)).length →
        (∀ j, j < k → env.embed j = Except.ok (embVal j)) →
        env.embed k = Except.error e →
        (processArticle env).1 = Except.error (ScrapeErr.embedError e)
        ∧ (insertedChunks (processArticle env).2).length = k
        ∧ ∀ rest, (runArticles (env :: rest)).1 = Except.error (ScrapeErr.embedError e)) := by
  have hPA := processArticle_eq_of_some env page hf hdiv hne
  constructor
  · intro hembed
    have hembed' : ∀ j, j < (splitTextIntoChunks (normalizeWs page.rawText)).length →
        env.embed (0 + j) = Except.ok (embVal (0 + j)) := by
      intro j hj; simpa using hembed j hj
    have hmain := processChunksAux_eq env (sTrim page.rawTitle)
      (splitTextIntoChunks (normalizeWs page.rawText)).length embVal
      (splitTextIntoChunks (normalizeWs page.rawText)) 0 0 hembed'
    constructor
    · rw [hPA, hmain]
      simp
    · rw [hPA, hmain]
      simp [insertedChunks_split_cons, insertedChunks_expected_length]
  · intro k e hk hpre hfail
    have hpre' : ∀ j, j < k → env.embed (0 + j) = Except.ok (embVal (0 + j)) := by
      intro j hj; simpa using hpre j hj
    have hfail' : env.embed (0 + k) = Except.error e := by simpa using hfail
    have hchunk := processChunksAux_embedFail env (sTrim page.rawTitle)
      (splitTextIntoChunks (normalizeWs page.rawText)).length embVal e
      (splitTextIntoChunks (normalizeWs page.rawText)) 0 0 k hk hpre' hfail'
    have h1 : (processArticle env).1 = Except.error (ScrapeErr.embedError e) := by
      rw [hPA]
      exact hchunk.1
    refine ⟨h1, ?_, ?_⟩
    · rw [hPA]
      simpa [insertedChunks_split_cons] using hchunk.2
    · intro rest
      have hp : processArticle env
          = (Except.error (ScrapeErr.embedError e), (processArticle env).2) :=
        Prod.ext h1 rfl
      show (runArticlesAux (env :: rest) 0).1 = _
      simp only [runArticlesAux]
      rw [hp]

set_option maxRecDepth 400000 in
theorem chunk_isolation_amended_witness :
    ((∀ j, j < (splitTextIntoChunks (normalizeWs loremText)).length →
        cEmbedFailEnv.embed j = Except.ok ((fun _ => ([1] : Embedding)) j)) →
      (processArticle cEmbedFailEnv).1
          = Except.ok (countStored cEmbedFailEnv 0
              (splitTextIntoChunks (normalizeWs loremText)).length)
      ∧ (insertedChunks (processArticle cEmbedFailEnv).2).length
          = (splitTextIntoChunks (normalizeWs loremText)).length)
    ∧ (∀ k e, k < (splitTextIntoChunks (normalizeWs loremText)).length →
        (∀ j, j < k → cEmbedFailEnv.embed j = Except.ok ((fun _ => ([1] : Embedding)) j)) →
        cEmbedFailEnv.embed k = Except.error e →
        (processArticle cEmbedFailEnv).1 = Except.error (ScrapeErr.embedError e)
        ∧ (insertedChunks (processArticle cEmbedFailEnv).2).length = k
        ∧ ∀ rest, (runArticles (cEmbedFailEnv :: rest)).1
            = Except.error (ScrapeErr.embedError e)) :=
  chunk_isolation_amended cEmbedFailEnv
    { hasArticleDiv := true, rawTitle := "T", rawText := loremText } (fun _ => [1])
    rfl rfl (by decide)

set_option maxRecDepth 400000 in
/-- C2 (counterexample): a two-chunk article whose embedding call fails on
chunk 0.  The failure is not caught at chunk granularity: the error
escapes `processArticle`, no chunk was submitted for storage (chunk 1 was
never processed), and a following healthy article is never reached. -/
theorem embed_failure_not_isolated :
    (splitTextIntoChunks (normalizeWs loremText)).length = 2
    ∧ (processArticle cEmbedFailEnv).1 = Except.error (ScrapeErr.embedError "boom")
    ∧ insertedChunks (processArticle cEmbedFailEnv).2 = []
    ∧ (runArticles [cEmbedFailEnv, cOkEnv]).1 = Except.error (ScrapeErr.embedError "boom") :=
  ⟨by decide, by decide, by decide, by decide⟩

/-- C1: extraction failure is fatal to the run, contradicting the claimed
article-level isolation.  `getArticleContent` returns `null` both when the
fetch fails and when the container is missing; destructuring it throws a
`TypeError` before the `if (!content)` guard, and `main`'s article loop
does not catch it, so a batch `[failing article, healthy article]` ends
with the error and an empty trace — the healthy article, which alone
would store one chunk, is never processed. -/
theorem extraction_failure_aborts_run :
    runArticles [cFetchFailEnv, cOkEnv] = (Except.error ScrapeErr.typeError, [])
    ∧ runArticles [cNoDivEnv, cOkEnv] = (Except.error ScrapeErr.typeError, [])
    ∧ runArticles [cOkEnv]
        = (Except.ok 1,
           [IngestEvent.splitCall "hello world",
            IngestEvent.embedCall "T hello world",
            IngestEvent.insertCall
              { content := "T hello world"
                metadata :=
                  { source_url := sampleUrl, title := "T", chunk_index := 0, total_chunks := 1 }
                embedding := [1] }]) :=
  ⟨by decide, by decide, by decide⟩

end Aichatbot
